/-
Verification of the LLM provider adapter layer, response validator, provider
factory, token rotation pool and secret redaction of the complexity-analyzer
repository, as a shallow embedding in Lean 4.

Sources embedded from the repository:
  * cli/llm.py           (OpenAIProvider.analyze_complexity, create_llm_provider)
  * cli/llm_anthropic.py (AnthropicProvider)
  * cli/llm_bedrock.py   (BedrockProvider)
  * cli/config.py        (redact_secret)

The modules cli/scoring.py (parse_complexity_response, InvalidResponseError),
cli/llm_base.py (LLMError), cli/constants.py and cli/github.py (TokenRotator)
are not present in the source tree; the definitions for those parts are
modelled from the specification (and the repository's own tests), and are
marked as such in their doc comments.
-/

import Mathlib

/-! ## Substring containment machinery

`strHas s sub` decides whether the string `sub` occurs contiguously inside
`s`.  It is used to state facts of the form "the error message contains the
literal string `after {N} attempts`". -/

/-- `matchesAt hay needle` is true when `needle` is an initial segment of `hay`. -/
def matchesAt : List Char → List Char → Bool
  | _, [] => true
  | [], _ :: _ => false
  | h :: hs, n :: ns => h == n && matchesAt hs ns

/-- `hasSubList needle hay` is true when `needle` occurs contiguously in `hay`. -/
def hasSubList (needle : List Char) : List Char → Bool
  | [] => matchesAt [] needle
  | h :: t => matchesAt (h :: t) needle || hasSubList needle t

/-- `strHas s sub` is true when `sub` occurs contiguously inside `s`. -/
def strHas (s sub : String) : Bool :=
  hasSubList sub.data s.data

/-! ## Response validator

cli/scoring.py is not present in the source tree; only its callers
(cli/llm*.py) and the specification describe it.  The validator below is
modelled from the spec (section 4.1). -/

/-- Modelled from the spec: a JSON value as produced by parsing a model
response.  cli/scoring.py is absent from the source tree; the spec restricts
the interesting cases to objects with integer/string fields, so numeric
values are modelled as integers. -/
inductive Json where
  | null : Json
  | bool (b : Bool) : Json
  | num (n : Int) : Json
  | str (s : String) : Json
  | arr (xs : List Json) : Json
  | obj (fields : List (String × Json)) : Json

/-- Python `str.strip()`: drop leading and trailing whitespace.  Written
structurally over the character list so that concrete runs evaluate. -/
def pyStrip (s : String) : String :=
  String.mk (((s.data.dropWhile Char.isWhitespace).reverse.dropWhile
    Char.isWhitespace).reverse)

/-- Modelled from the spec: Python `int(x)` coercion on a JSON value, as used
for the `complexity` field ("coercible to integer"): integers pass through,
booleans coerce to 0/1, and strings holding an integer literal parse. -/
def coerceInt : Json → Option Int
  | .num n => some n
  | .bool b => some (if b then 1 else 0)
  | .str s => (pyStrip s).toInt?
  | _ => none

/-- Modelled from the spec: Python `str(x)` coercion for the `explanation`
field ("coercible to string"); it never fails.  The rendering of composite
values is not specified and does not affect any claim. -/
def jsonToStr : Json → String
  | .str s => s
  | .num n => toString n
  | .bool true => "True"
  | .bool false => "False"
  | .null => "None"
  | .arr _ => "<json array>"
  | .obj _ => "<json object>"

/-- The canonical validated `(complexity, explanation)` pair produced by the
response validator. -/
structure ParsedResult where
  complexity : Int
  explanation : String
deriving DecidableEq, Repr

/-- Modelled from the spec: the validation step of
`parse_complexity_response` (cli/scoring.py, absent from src).  Its input is
the parse result of the response text: `none` when the text contains no
parseable JSON object (even after the first-brace/last-brace recovery).
It requires the keys `complexity` (coercible to integer) and `explanation`,
clamps `complexity` into [1, 10], and reports `InvalidResponseError`
(modelled as `Except.error`) otherwise. -/
def validateParsed : Option Json → Except String ParsedResult
  | none => .error "No valid JSON object found in response"
  | some j =>
    match j with
    | .obj fields =>
      match fields.lookup "complexity" with
      | none => .error "Missing required key: complexity"
      | some cv =>
        match coerceInt cv with
        | none => .error "complexity is not coercible to an integer"
        | some n =>
          match fields.lookup "explanation" with
          | none => .error "Missing required key: explanation"
          | some ev => .ok ⟨max 1 (min 10 n), jsonToStr ev⟩
    | _ => .error "Response is not a JSON object"

/-- Modelled from the spec: `parse_complexity_response` (cli/scoring.py,
absent from src) = text-to-JSON parsing (the `decode` parameter, standing
for `json.loads` plus the brace-recovery heuristic) followed by validation. -/
def parse_complexity_response (decode : String → Option Json) (text : String) :
    Except String ParsedResult :=
  validateParsed (decode text)

/-! ## Secret redaction (cli/config.py) -/

/-- Modelled from the spec: `TOKEN_VISIBLE_CHARS` lives in cli/constants.py,
which is absent from src.  The spec calls it "a small fixed number of leading
characters"; the repository test redacts `"ghp_token1abc"` to a key starting
with its 4-character prefix. -/
def TOKEN_VISIBLE_CHARS : Nat := 4

/-- `redact_secret` from cli/config.py: keep the first `visible_chars`
characters and replace the rest with `*`; values no longer than
`visible_chars` are fully masked. -/
def redact_secret (value : String) (visible_chars : Nat) : String :=
  if value.length ≤ visible_chars then
    String.mk (List.replicate value.length '*')
  else
    String.mk (value.data.take visible_chars ++
      List.replicate (value.length - visible_chars) '*')

/-! ## TokenRotator (cli/github.py, absent from src)

The token rotation pool is modelled from the spec (sections 3, 4.4) and the
repository's own tests (tests/test_github.py, TestTokenRotator).  Wall-clock
time is passed explicitly as `now` (epoch seconds). -/

/-- Per-credential state inside the pool (spec section 3, TokenRecord). -/
structure TokenRecord where
  token : String
  remaining : Option Int
  reset_at : Option Int
deriving DecidableEq, Repr

/-- Modelled from the spec: the pool of credential records. -/
structure TokenRotator where
  records : List TokenRecord
deriving DecidableEq, Repr

/-- Order-preserving de-duplication (first occurrence wins), as performed on
the token list at construction time. -/
def dedupKeepFirst : List String → List String
  | [] => []
  | t :: rest => t :: (dedupKeepFirst rest).filter (fun x => x ≠ t)

/-- Modelled from the spec: TokenRotator construction.  Discards empty
strings, de-duplicates, and fails with distinct configuration-error messages
for an originally-empty input versus an input that became empty after
filtering blanks (messages as pinned by tests/test_github.py). -/
def mkTokenRotator (tokens : List String) : Except String TokenRotator :=
  if tokens = [] then .error "At least one token is required"
  else
    let pool := dedupKeepFirst (tokens.filter (fun t => t ≠ ""))
    if pool = [] then .error "At least one non-empty token is required"
    else .ok ⟨pool.map (fun t => ⟨t, none, none⟩)⟩

/-- Total number of tokens in the pool (post-dedup, post-filter). -/
def TokenRotator.token_count (rot : TokenRotator) : Nat :=
  rot.records.length

/-- Modelled from the spec: a record is currently rate-limited exactly when
`reset_at` is present and still in the future. -/
def rate_limited (now : Int) (r : TokenRecord) : Bool :=
  match r.reset_at with
  | some t => now < t
  | none => false

/-- Selection key for available tokens: the last-known `remaining` count,
with an unknown count treated as maximally preferred. -/
def remKey (r : TokenRecord) : WithTop Int :=
  match r.remaining with
  | some n => (n : WithTop Int)
  | none => ⊤

/-- Selection key when every token is rate-limited: its reset time. -/
def resetKey (r : TokenRecord) : Int :=
  r.reset_at.getD 0

/-- First record maximizing `key` (first occurrence wins on ties). -/
def selectMaxBy {α : Type} [LinearOrder α] (key : TokenRecord → α) :
    List TokenRecord → Option TokenRecord
  | [] => none
  | r :: rs => some (rs.foldl (fun best x => if key best < key x then x else best) r)

/-- First record minimizing `key` (first occurrence wins on ties). -/
def selectMinBy {α : Type} [LinearOrder α] (key : TokenRecord → α) :
    List TokenRecord → Option TokenRecord
  | [] => none
  | r :: rs => some (rs.foldl (fun best x => if key x < key best then x else best) r)

/-- Modelled from the spec: `get_token` selection policy.  Prefer a token
that is not currently rate-limited, with the highest last-known remaining
count (unknown treated as maximal); if every token is rate-limited, return
the one whose reset time is soonest.  It never fails on a non-empty pool. -/
def TokenRotator.get_token (rot : TokenRotator) (now : Int) : Option String :=
  let avail := rot.records.filter (fun r => !(rate_limited now r))
  match selectMaxBy remKey avail with
  | some r => some r.token
  | none => (selectMinBy resetKey rot.records).map (fun r => r.token)

/-- Modelled from the spec: record that `token` is exhausted until `reset`;
unknown tokens are silently ignored. -/
def TokenRotator.mark_rate_limited (rot : TokenRotator) (token : String)
    (reset : Int) : TokenRotator :=
  ⟨rot.records.map (fun r =>
    if r.token = token then { r with reset_at := some reset } else r)⟩

/-- Modelled from the spec: record an observed quota snapshot; a zero
`remaining` behaves as `mark_rate_limited` (tests pin that a non-zero
`remaining` does not make the token count as rate-limited). -/
def TokenRotator.update_rate_limit (rot : TokenRotator) (token : String)
    (remaining : Int) (reset : Int) : TokenRotator :=
  ⟨rot.records.map (fun r =>
    if r.token = token then
      { r with remaining := some remaining,
               reset_at := if remaining = 0 then some reset else r.reset_at }
    else r)⟩

/-- One entry of the diagnostic snapshot returned by `get_status`. -/
structure TokenStatus where
  remaining : Option Int
  reset_at : Option Int
  rate_limited : Bool
deriving DecidableEq, Repr

/-- Modelled from the spec: `get_status` returns a snapshot keyed by the
redacted form of each token (never the raw secret). -/
def TokenRotator.get_status (rot : TokenRotator) (now : Int) :
    List (String × TokenStatus) :=
  rot.records.map (fun r =>
    (redact_secret r.token TOKEN_VISIBLE_CHARS,
     ⟨r.remaining, r.reset_at, rate_limited now r⟩))

/-! ## LLM provider adapters (cli/llm.py, cli/llm_anthropic.py, cli/llm_bedrock.py)

The three `analyze_complexity` retry loops in the source are line-for-line
identical up to the wire format; they are embedded as one loop,
parameterized by the variant-specific pieces (initial transcript, message
construction, content/token extraction, error-message texts), each taken
verbatim from its source file.  Sleeps and jitter are not modelled (they do
not affect any claim).  `Except.error` models raising `LLMError`: per
cli/llm*.py every terminal failure path raises `LLMError` (llm_base.py is
absent from src; per the spec and tests/test_llm.py, `LLMError` is an
`Exception` subclass carrying a message and is distinct from
`InvalidResponseError`). -/

/-- Outcome of one transport call by the mocked backend client: a raised
generic exception, a raised `InvalidResponseError`, or a response object. -/
inductive TResult (Resp : Type) where
  | exn (e : String) : TResult Resp
  | invalid (e : String) : TResult Resp
  | ok (r : Resp) : TResult Resp
deriving DecidableEq

/-- The record returned by a successful `analyze_complexity` call. -/
structure ComplexityRecord where
  complexity : Int
  explanation : String
  provider : String
  model : String
  tokens : Option Nat
deriving DecidableEq, Repr

/-- The variant-specific pieces of `analyze_complexity`: how the initial
transcript is built, how repair turns are constructed, how text content and
token usage are extracted from a response, and the literal error texts. -/
structure Variant (Msg Resp : Type) where
  initialMessages : String → String → List Msg
  mkAssistant : String → Msg
  mkUser : String → Msg
  extractContent : Resp → String
  extractTokens : Resp → Option Nat
  providerName : String
  modelName : String
  apiErrorHead : String
  emptyResponseMsg : String

/-- The repair instruction appended after a validation failure
(cli/llm.py lines 110-114; identical in llm_anthropic.py and llm_bedrock.py). -/
def repair_prompt (e : String) : String :=
  "The previous response was invalid. Please respond with ONLY a valid JSON object of the form: \x7b'complexity': <int 1..10>, 'explanation': '<string>'\x7d. Error: " ++ e

/-- The fixed textual template of the user turn (cli/llm.py line 80). -/
def user_content (diff_excerpt stats_json title : String) : String :=
  "diff_excerpt:\n" ++ diff_excerpt ++ "\n\nstats_json:\n" ++ stats_json ++
    "\n\ntitle:\n" ++ title

/-- `"after {max_retries} attempts"`, the fragment shared by every terminal
error message. -/
def afterAttempts (n : Nat) : String :=
  "after " ++ toString n ++ " attempts"

/-- `f"{head} after {max_retries} attempts: {e}"` (generic-exception path). -/
def apiErrorMsg (head : String) (n : Nat) (e : String) : String :=
  head ++ " " ++ afterAttempts n ++ ": " ++ e

/-- `f"Failed to parse response after {max_retries} attempts: {e}"`. -/
def parseErrorMsg (n : Nat) (e : String) : String :=
  "Failed to parse response " ++ afterAttempts n ++ ": " ++ e

/-- `f"Failed after {max_retries} attempts"` (defensive fallback after the
loop). -/
def exhaustedMsg (n : Nat) : String :=
  "Failed " ++ afterAttempts n

/-- The shared retry loop of `analyze_complexity` (cli/llm.py lines 84-140;
identical in llm_anthropic.py and llm_bedrock.py).  `remaining` counts the
loop iterations still to run (initially `max_retries`); `attempt` is the
Python loop index; `lastContent` models the Python local `content` as read
by `content if "content" in locals() else ""`; `trace` accumulates the
transcript passed to each transport call, one entry per request issued.  The
result pairs the outcome (`Except.error` = raised `LLMError`) with the full
trace. -/
def runLoop {Msg Resp : Type} (V : Variant Msg Resp) (decode : String → Option Json)
    (transport : Nat → List Msg → TResult Resp) (max_retries : Nat) :
    Nat → Nat → List Msg → String → List (List Msg) →
    Except String ComplexityRecord × List (List Msg)
  | _, 0, _, _, trace => (.error (exhaustedMsg max_retries), trace)
  | attempt, rem + 1, msgs, lastContent, trace =>
    let trace' := trace ++ [msgs]
    match transport attempt msgs with
    | .exn e =>
      if rem > 0 then
        runLoop V decode transport max_retries (attempt + 1) rem msgs lastContent trace'
      else (.error (apiErrorMsg V.apiErrorHead max_retries e), trace')
    | .invalid e =>
      if rem > 0 then
        runLoop V decode transport max_retries (attempt + 1) rem
          (msgs ++ [V.mkAssistant lastContent, V.mkUser (repair_prompt e)])
          lastContent trace'
      else (.error (parseErrorMsg max_retries e), trace')
    | .ok resp =>
      let content := V.extractContent resp
      if content = "" then
        if rem > 0 then
          runLoop V decode transport max_retries (attempt + 1) rem msgs content trace'
        else (.error (apiErrorMsg V.apiErrorHead max_retries V.emptyResponseMsg), trace')
      else
        match validateParsed (decode content) with
        | .ok pr =>
          (.ok { complexity := pr.complexity, explanation := pr.explanation,
                 provider := V.providerName, model := V.modelName,
                 tokens := V.extractTokens resp }, trace')
        | .error e =>
          if rem > 0 then
            runLoop V decode transport max_retries (attempt + 1) rem
              (msgs ++ [V.mkAssistant content, V.mkUser (repair_prompt e)])
              content trace'
          else (.error (parseErrorMsg max_retries e), trace')

/-- `analyze_complexity(prompt, diff_excerpt, stats_json, title, max_retries)`
for a variant, against a mocked transport.  Returns the outcome together
with the list of transcripts passed to the transport, one per request. -/
def analyze_complexity {Msg Resp : Type} (V : Variant Msg Resp)
    (decode : String → Option Json) (transport : Nat → List Msg → TResult Resp)
    (prompt diff_excerpt stats_json title : String) (max_retries : Nat) :
    Except String ComplexityRecord × List (List Msg) :=
  runLoop V decode transport max_retries 0 max_retries
    (V.initialMessages prompt (user_content diff_excerpt stats_json title)) "" []

/-! ### OpenAI variant (cli/llm.py) -/

/-- A chat message turn (role + text content). -/
structure Turn where
  role : String
  content : String
deriving DecidableEq, Repr

/-- `response.usage` of an OpenAI chat completion. -/
structure OpenAIUsage where
  total_tokens : Nat
deriving DecidableEq, Repr

/-- An OpenAI chat-completion response, reduced to the fields the adapter
reads: `choices[0].message.content` (a `None` content is collapsed into `""`,
which the adapter treats identically via `if not content`) and `usage`. -/
structure OpenAIResponse where
  content : String
  usage : Option OpenAIUsage
deriving DecidableEq, Repr

/-- `response.usage.total_tokens if response.usage else None` (cli/llm.py
line 103). -/
def openai_extract_tokens (r : OpenAIResponse) : Option Nat :=
  r.usage.map (fun u => u.total_tokens)

/-- The OpenAI variant: system turn plus user turn, content taken verbatim,
`usage.total_tokens` extraction, OpenAI error texts. -/
def openaiVariant (model : String) : Variant Turn OpenAIResponse where
  initialMessages := fun prompt uc => [⟨"system", prompt⟩, ⟨"user", uc⟩]
  mkAssistant := fun c => ⟨"assistant", c⟩
  mkUser := fun c => ⟨"user", c⟩
  extractContent := fun r => r.content
  extractTokens := openai_extract_tokens
  providerName := "openai"
  modelName := model
  apiErrorHead := "OpenAI API error"
  emptyResponseMsg := "Empty response from OpenAI"

/-! ### Anthropic variant (cli/llm_anthropic.py) -/

/-- `response.usage` of an Anthropic message response; each field is `none`
when the attribute is absent or `None` (`getattr(..., 0) or 0`). -/
structure AnthropicUsage where
  input_tokens : Option Nat
  output_tokens : Option Nat
deriving DecidableEq, Repr

/-- An Anthropic message response: content blocks (`some t` when the block
has a `text` attribute) and optional usage. -/
structure AnthropicResponse where
  content : List (Option String)
  usage : Option AnthropicUsage
deriving DecidableEq, Repr

/-- `AnthropicProvider._extract_content`: the text of the first content
block, stripped; `""` when there is no block or it has no text. -/
def anthropic_extract_content (r : AnthropicResponse) : String :=
  match r.content with
  | [] => ""
  | b :: _ =>
    match b with
    | some t => pyStrip t
    | none => ""

/-- `AnthropicProvider._extract_tokens`: `input_tokens + output_tokens` when
`response.usage` is present (absent/`None` fields count as 0), else `None`. -/
def anthropic_extract_tokens (r : AnthropicResponse) : Option Nat :=
  match r.usage with
  | none => none
  | some u => some (u.input_tokens.getD 0 + u.output_tokens.getD 0)

/-- The Anthropic variant: the system text (prompt + JSON instruction) is a
separate request field, so the transcript starts with the single user turn. -/
def anthropicVariant (model : String) : Variant Turn AnthropicResponse where
  initialMessages := fun _prompt uc => [⟨"user", uc⟩]
  mkAssistant := fun c => ⟨"assistant", c⟩
  mkUser := fun c => ⟨"user", c⟩
  extractContent := anthropic_extract_content
  extractTokens := anthropic_extract_tokens
  providerName := "anthropic"
  modelName := model
  apiErrorHead := "Anthropic API error"
  emptyResponseMsg := "Empty response from Anthropic"

/-- The JSON instruction appended to the Anthropic system prompt
(cli/llm_anthropic.py lines 75-78); it is a request field, not a transcript
turn. -/
def json_instruction : String :=
  "\n\nRespond with ONLY a valid JSON object: \x7b\"complexity\": <int 1-10>, \"explanation\": \"<string>\"\x7d"

/-! ### Bedrock variant (cli/llm_bedrock.py) -/

/-- A Bedrock Converse-API message turn: a role and a list of content-block
texts. -/
structure BedrockTurn where
  role : String
  content : List String
deriving DecidableEq, Repr

/-- The `usage` dict of a Converse response; `none` models an absent key. -/
structure BedrockUsage where
  totalTokens : Option Nat
  inputTokens : Option Nat
  outputTokens : Option Nat
deriving DecidableEq, Repr

/-- A Converse response: `output.message.content` blocks (`some t` when the
block has a `"text"` key) and the optional `usage` dict. -/
structure BedrockResponse where
  output_content : List (Option String)
  usage : Option BedrockUsage
deriving DecidableEq, Repr

/-- `BedrockProvider._extract_content`: the text of the first block having a
`"text"` key, stripped; `""` otherwise. -/
def bedrock_extract_content (r : BedrockResponse) : String :=
  match r.output_content.findSome? id with
  | some t => pyStrip t
  | none => ""

/-- `BedrockProvider._extract_tokens`:
`usage.get("totalTokens") or ((usage.get("inputTokens", 0) or 0) + (usage.get("outputTokens", 0) or 0))`
with `usage = response.get("usage", \x7b\x7d)`.  A missing or zero
`totalTokens` falls back to the input+output sum; an entirely absent usage
dict therefore yields `0`, never `None` (the `except` branch that returns
`None` is unreachable for dict-shaped responses). -/
def bedrock_extract_tokens (r : BedrockResponse) : Option Nat :=
  let u := r.usage.getD ⟨none, none, none⟩
  let fallback := u.inputTokens.getD 0 + u.outputTokens.getD 0
  match u.totalTokens with
  | some t => if t = 0 then some fallback else some t
  | none => some fallback

/-- The Bedrock variant: system is a separate request field; each transcript
turn carries a list of text blocks. -/
def bedrockVariant (model : String) : Variant BedrockTurn BedrockResponse where
  initialMessages := fun _prompt uc => [⟨"user", [uc]⟩]
  mkAssistant := fun c => ⟨"assistant", [c]⟩
  mkUser := fun c => ⟨"user", [c]⟩
  extractContent := bedrock_extract_content
  extractTokens := bedrock_extract_tokens
  providerName := "bedrock"
  modelName := model
  apiErrorHead := "Bedrock API error"
  emptyResponseMsg := "Empty response from Bedrock"

/-! ### Provider factory (cli/llm.py, create_llm_provider) -/

/-- The provider instance constructed by the factory. -/
inductive ProviderInstance where
  | openaiInst (api_key : String) (model : String) : ProviderInstance
  | bedrockInst (region : String) (model_id : String) : ProviderInstance
deriving DecidableEq, Repr

/-- Modelled from the spec: `DEFAULT_BEDROCK_MODEL` lives in cli/constants.py
(absent from src); the value follows the docstring example in
cli/llm_bedrock.py and the test `"claude-sonnet-4-5" in provider.model_name`. -/
def DEFAULT_BEDROCK_MODEL : String := "anthropic.claude-sonnet-4-5-20250929-v1:0"

/-- Modelled from the spec: `DEFAULT_MODEL` lives in cli/constants.py (absent
from src); tests/test_llm.py pins it to `"gpt-5.2"`. -/
def DEFAULT_MODEL : String := "gpt-5.2"

/-- Python `a or b` on an optional string: empty and absent are both falsy. -/
def orDefaultStr (v : Option String) (d : String) : String :=
  match v with
  | some s => if s = "" then d else s
  | none => d

/-- `get_bedrock_config` (cli/config.py): region from `BEDROCK_REGION`, then
`AWS_REGION`, then `"us-east-1"`; model from `BEDROCK_MODEL_ID`, then the
default.  Environment variables are passed explicitly. -/
def get_bedrock_config (env_bedrock_region env_aws_region env_bedrock_model :
    Option String) : String × String :=
  (orDefaultStr env_bedrock_region (orDefaultStr env_aws_region "us-east-1"),
   orDefaultStr env_bedrock_model DEFAULT_BEDROCK_MODEL)

/-- `create_llm_provider` (cli/llm.py lines 143-183).  Dispatches on the
discriminator string: `"bedrock"` resolves region/model through
`get_bedrock_config` with truthy overrides, `"openai"` requires a non-empty
key, and anything else — including `"anthropic"` — is rejected with the
literal message below. -/
def create_llm_provider (provider : String) (openai_key : Option String)
    (model : String) (bedrock_model bedrock_region : Option String)
    (env_bedrock_region env_aws_region env_bedrock_model : Option String) :
    Except String ProviderInstance :=
  if provider = "bedrock" then
    let rm := get_bedrock_config env_bedrock_region env_aws_region env_bedrock_model
    let region := orDefaultStr bedrock_region rm.1
    let model_id := orDefaultStr bedrock_model rm.2
    .ok (.bedrockInst region model_id)
  else if provider = "openai" then
    match openai_key with
    | some k =>
      if k = "" then .error "OpenAI API key is required for openai provider"
      else .ok (.openaiInst k model)
    | none => .error "OpenAI API key is required for openai provider"
  else .error ("Unknown provider: " ++ provider ++ ". Use 'openai' or 'bedrock'.")

/-! ## Concrete fixtures used by the witness theorems -/

/-- A decode function that finds JSON only in the text `"good"`. -/
def wDecode : String → Option Json :=
  fun s =>
    if s = "good" then some (.obj [("complexity", .num 5), ("explanation", .str "Medium")])
    else none

/-- A transport that raises a generic exception on every call. -/
def wFailTransport : Nat → List Turn → TResult OpenAIResponse :=
  fun _ _ => .exn "boom"

/-- An OpenAI response whose content does not decode to JSON. -/
def wBadResp : OpenAIResponse := ⟨"bad", none⟩

/-- A transport that always returns the undecodable response. -/
def wBadTransport : Nat → List Turn → TResult OpenAIResponse :=
  fun _ _ => .ok wBadResp

/-- An OpenAI response with empty content. -/
def wEmptyResp : OpenAIResponse := ⟨"", some ⟨7⟩⟩

/-- A transport that always returns the empty-content response. -/
def wEmptyTransport : Nat → List Turn → TResult OpenAIResponse :=
  fun _ _ => .ok wEmptyResp

/-- A valid OpenAI response with usage metadata. -/
def wOkRespO : OpenAIResponse := ⟨"good", some ⟨1000⟩⟩

/-- A valid Anthropic response with usage metadata. -/
def wOkRespA : AnthropicResponse := ⟨[some "good"], some ⟨some 100, some 50⟩⟩

/-- A valid Bedrock response carrying no usage metadata at all. -/
def wOkRespBNoUsage : BedrockResponse := ⟨[some "good"], none⟩

/-- A transport always answering with the usage-less Bedrock response. -/
def wBedrockTransport : Nat → List BedrockTurn → TResult BedrockResponse :=
  fun _ _ => .ok wOkRespBNoUsage

/-- A transport always answering with the valid OpenAI response. -/
def wOkTransportO : Nat → List Turn → TResult OpenAIResponse :=
  fun _ _ => .ok wOkRespO

/-- A transport always answering with the valid Anthropic response. -/
def wOkTransportA : Nat → List Turn → TResult AnthropicResponse :=
  fun _ _ => .ok wOkRespA

/-- A two-token pool: a tested token with 10 remaining and an untested one. -/
def wRotator : TokenRotator := ⟨[⟨"a", some 10, none⟩, ⟨"b", none, none⟩]⟩

/-! ## Lemmas: substring containment -/

theorem matchesAt_append_self (n b : List Char) : matchesAt (n ++ b) n = true := by
  induction n with
  | nil => cases b <;> rfl
  | cons c cs ih => simp [matchesAt, ih]

theorem matchesAt_mono (n h b : List Char) (hm : matchesAt h n = true) :
    matchesAt (h ++ b) n = true := by
  induction n generalizing h with
  | nil => cases h ++ b <;> rfl
  | cons x xs ih =>
    cases h with
    | nil => simp [matchesAt] at hm
    | cons c cs =>
      simp only [matchesAt, Bool.and_eq_true] at hm
      simp only [List.cons_append, matchesAt, Bool.and_eq_true]
      exact ⟨hm.1, ih cs hm.2⟩

theorem hasSubList_nil_needle (hay : List Char) : hasSubList [] hay = true := by
  cases hay <;> rfl

theorem hasSubList_of_matchesAt (n hay : List Char) (hm : matchesAt hay n = true) :
    hasSubList n hay = true := by
  cases hay with
  | nil =>
    cases n with
    | nil => rfl
    | cons x xs => simp [matchesAt] at hm
  | cons h t => simp [hasSubList, hm]

theorem hasSubList_cons (n hay : List Char) (c : Char) (h : hasSubList n hay = true) :
    hasSubList n (c :: hay) = true := by
  simp [hasSubList, h]

theorem hasSubList_prepend (n a hay : List Char) (h : hasSubList n hay = true) :
    hasSubList n (a ++ hay) = true := by
  induction a with
  | nil => simpa using h
  | cons c cs ih => exact hasSubList_cons n (cs ++ hay) c ih

theorem hasSubList_self_append (n b : List Char) : hasSubList n (n ++ b) = true :=
  hasSubList_of_matchesAt n (n ++ b) (matchesAt_append_self n b)

theorem hasSubList_append_right (n a b : List Char) (h : hasSubList n a = true) :
    hasSubList n (a ++ b) = true := by
  induction a with
  | nil =>
    cases n with
    | nil => exact hasSubList_nil_needle b
    | cons x xs => simp [hasSubList, matchesAt] at h
  | cons c cs ih =>
    simp only [hasSubList, Bool.or_eq_true] at h
    rcases h with h | h
    · exact hasSubList_of_matchesAt n _ (matchesAt_mono n (c :: cs) b h)
    · exact hasSubList_cons n (cs ++ b) c (ih h)
theorem strHas_of_split (a t b : String) : strHas (a ++ (t ++ b)) t = true := by
  unfold strHas
  simp only [String.data_append]
  exact hasSubList_prepend _ _ _ (hasSubList_self_append _ _)

theorem strHas_apiErrorMsg (head : String) (n : Nat) (e : String) :
    strHas (apiErrorMsg head n e) (afterAttempts n) = true := by
  unfold strHas apiErrorMsg
  simp only [String.data_append, List.append_assoc]
  exact hasSubList_prepend _ _ _ (hasSubList_prepend _ _ _ (hasSubList_self_append _ _))

theorem strHas_parseErrorMsg (n : Nat) (e : String) :
    strHas (parseErrorMsg n e) (afterAttempts n) = true := by
  unfold strHas parseErrorMsg
  simp only [String.data_append, List.append_assoc]
  exact hasSubList_prepend _ _ _ (hasSubList_self_append _ _)

theorem strHas_exhaustedMsg (n : Nat) :
    strHas (exhaustedMsg n) (afterAttempts n) = true := by
  unfold strHas exhaustedMsg
  simp only [String.data_append]
  exact hasSubList_prepend _ _ _
    (by simpa using hasSubList_self_append (afterAttempts n).data [])

theorem strHas_append_left (s t b : String) (h : strHas s t = true) :
    strHas (s ++ b) t = true := by
  unfold strHas at h ⊢
  simp only [String.data_append]
  exact hasSubList_append_right _ _ _ h

/-! ## Lemmas: the retry loop -/

theorem runLoop_all_fail {Msg Resp : Type} (V : Variant Msg Resp)
    (decode : String → Option Json) (transport : Nat → List Msg → TResult Resp)
    (N : Nat) (hfail : ∀ a msgs r, transport a msgs ≠ .ok r) :
    ∀ (k attempt : Nat) (msgs : List Msg) (lc : String) (trace : List (List Msg)),
      ∃ m tr, runLoop V decode transport N attempt (k + 1) msgs lc trace = (.error m, tr) ∧
        tr.length = trace.length + (k + 1) ∧ strHas m (afterAttempts N) = true := by
  intro k
  induction k with
  | zero =>
    intro attempt msgs lc trace
    cases h : transport attempt msgs with
    | exn e =>
      exact ⟨apiErrorMsg V.apiErrorHead N e, trace ++ [msgs],
        by simp [runLoop, h], by simp, strHas_apiErrorMsg _ _ _⟩
    | invalid e =>
      exact ⟨parseErrorMsg N e, trace ++ [msgs],
        by simp [runLoop, h], by simp, strHas_parseErrorMsg _ _⟩
    | ok r => exact absurd h (hfail _ _ _)
  | succ k ih =>
    intro attempt msgs lc trace
    cases h : transport attempt msgs with
    | exn e =>
      obtain ⟨m, tr, heq, hlen, hhas⟩ := ih (attempt + 1) msgs lc (trace ++ [msgs])
      refine ⟨m, tr, ?_, by simp at hlen ⊢; omega, hhas⟩
      simpa [runLoop, h] using heq
    | invalid e =>
      obtain ⟨m, tr, heq, hlen, hhas⟩ :=
        ih (attempt + 1) (msgs ++ [V.mkAssistant lc, V.mkUser (repair_prompt e)]) lc
          (trace ++ [msgs])
      refine ⟨m, tr, ?_, by simp at hlen ⊢; omega, hhas⟩
      simpa [runLoop, h] using heq
    | ok r => exact absurd h (hfail _ _ _)

theorem runLoop_succ_exn {Msg Resp : Type} (V : Variant Msg Resp)
    (decode : String → Option Json) (transport : Nat → List Msg → TResult Resp)
    (N : Nat) {attempt rem : Nat} {msgs : List Msg} {lc : String}
    {trace : List (List Msg)} {e : String} (hrem : 0 < rem)
    (h : transport attempt msgs = .exn e) :
    runLoop V decode transport N attempt (rem + 1) msgs lc trace =
      runLoop V decode transport N (attempt + 1) rem msgs lc (trace ++ [msgs]) := by
  simp [runLoop, h, hrem]

theorem runLoop_succ_empty {Msg Resp : Type} (V : Variant Msg Resp)
    (decode : String → Option Json) (transport : Nat → List Msg → TResult Resp)
    (N : Nat) {attempt rem : Nat} {msgs : List Msg} {lc : String}
    {trace : List (List Msg)} {r : Resp} (hrem : 0 < rem)
    (h : transport attempt msgs = .ok r) (hc : V.extractContent r = "") :
    runLoop V decode transport N attempt (rem + 1) msgs lc trace =
      runLoop V decode transport N (attempt + 1) rem msgs "" (trace ++ [msgs]) := by
  simp [runLoop, h, hc, hrem]

theorem runLoop_succ_parse_retry {Msg Resp : Type} (V : Variant Msg Resp)
    (decode : String → Option Json) (transport : Nat → List Msg → TResult Resp)
    (N : Nat) {attempt rem : Nat} {msgs : List Msg} {lc : String}
    {trace : List (List Msg)} {r : Resp} {e : String} (hrem : 0 < rem)
    (h : transport attempt msgs = .ok r) (hc : V.extractContent r ≠ "")
    (hv : validateParsed (decode (V.extractContent r)) = .error e) :
    runLoop V decode transport N attempt (rem + 1) msgs lc trace =
      runLoop V decode transport N (attempt + 1) rem
        (msgs ++ [V.mkAssistant (V.extractContent r), V.mkUser (repair_prompt e)])
        (V.extractContent r) (trace ++ [msgs]) := by
  simp [runLoop, h, hc, hv, hrem]

theorem runLoop_succ_success {Msg Resp : Type} (V : Variant Msg Resp)
    (decode : String → Option Json) (transport : Nat → List Msg → TResult Resp)
    (N : Nat) {attempt rem : Nat} {msgs : List Msg} {lc : String}
    {trace : List (List Msg)} {r : Resp} {pr : ParsedResult}
    (h : transport attempt msgs = .ok r) (hc : V.extractContent r ≠ "")
    (hv : validateParsed (decode (V.extractContent r)) = .ok pr) :
    runLoop V decode transport N attempt (rem + 1) msgs lc trace =
      (.ok { complexity := pr.complexity, explanation := pr.explanation,
             provider := V.providerName, model := V.modelName,
             tokens := V.extractTokens r }, trace ++ [msgs]) := by
  simp [runLoop, h, hc, hv]

theorem runLoop_trace_extends {Msg Resp : Type} (V : Variant Msg Resp)
    (decode : String → Option Json) (transport : Nat → List Msg → TResult Resp)
    (N : Nat) :
    ∀ (rem attempt : Nat) (msgs : List Msg) (lc : String) (trace : List (List Msg)),
      ∃ rest, (runLoop V decode transport N attempt rem msgs lc trace).2 = trace ++ rest := by
  intro rem
  induction rem with
  | zero => intro attempt msgs lc trace; exact ⟨[], by simp [runLoop]⟩
  | succ rem ih =>
    intro attempt msgs lc trace
    cases h : transport attempt msgs with
    | exn e =>
      by_cases hr : rem > 0
      · obtain ⟨rest, hrest⟩ := ih (attempt + 1) msgs lc (trace ++ [msgs])
        exact ⟨[msgs] ++ rest, by simp only [runLoop, h]; simp [hr, hrest]⟩
      · exact ⟨[msgs], by simp only [runLoop, h]; simp [hr]⟩
    | invalid e =>
      by_cases hr : rem > 0
      · obtain ⟨rest, hrest⟩ :=
          ih (attempt + 1) (msgs ++ [V.mkAssistant lc, V.mkUser (repair_prompt e)]) lc
            (trace ++ [msgs])
        exact ⟨[msgs] ++ rest, by simp only [runLoop, h]; simp [hr, hrest]⟩
      · exact ⟨[msgs], by simp only [runLoop, h]; simp [hr]⟩
    | ok r =>
      by_cases hc : V.extractContent r = ""
      · by_cases hr : rem > 0
        · obtain ⟨rest, hrest⟩ := ih (attempt + 1) msgs "" (trace ++ [msgs])
          exact ⟨[msgs] ++ rest, by simp only [runLoop, h]; simp [hc, hr, hrest]⟩
        · exact ⟨[msgs], by simp only [runLoop, h]; simp [hc, hr]⟩
      · cases hv : validateParsed (decode (V.extractContent r)) with
        | ok pr => exact ⟨[msgs], by simp only [runLoop, h]; simp [hc, hv]⟩
        | error e =>
          by_cases hr : rem > 0
          · obtain ⟨rest, hrest⟩ :=
              ih (attempt + 1)
                (msgs ++ [V.mkAssistant (V.extractContent r),
                          V.mkUser (repair_prompt e)])
                (V.extractContent r) (trace ++ [msgs])
            exact ⟨[msgs] ++ rest, by simp only [runLoop, h]; simp [hc, hv, hr, hrest]⟩
          · exact ⟨[msgs], by simp only [runLoop, h]; simp [hc, hv, hr]⟩

theorem runLoop_all_empty {Msg Resp : Type} (V : Variant Msg Resp)
    (decode : String → Option Json) (transport : Nat → List Msg → TResult Resp)
    (N : Nat)
    (hempty : ∀ a msgs, ∃ r, transport a msgs = .ok r ∧ V.extractContent r = "") :
    ∀ (k attempt : Nat) (msgs : List Msg) (lc : String) (trace : List (List Msg)),
      runLoop V decode transport N attempt (k + 1) msgs lc trace =
        (.error (apiErrorMsg V.apiErrorHead N V.emptyResponseMsg),
         trace ++ List.replicate (k + 1) msgs) := by
  intro k
  induction k with
  | zero =>
    intro attempt msgs lc trace
    obtain ⟨r, heq, hc⟩ := hempty attempt msgs
    simp [runLoop, heq, hc]
  | succ k ih =>
    intro attempt msgs lc trace
    obtain ⟨r, heq, hc⟩ := hempty attempt msgs
    rw [runLoop_succ_empty V decode transport N (Nat.succ_pos k) heq hc,
      ih (attempt + 1) msgs "" (trace ++ [msgs])]
    simp [List.replicate_succ]

/-! ## Lemmas: token pool -/

theorem mem_dedupKeepFirst (x : String) (l : List String) :
    x ∈ dedupKeepFirst l ↔ x ∈ l := by
  induction l with
  | nil => simp [dedupKeepFirst]
  | cons t rest ih =>
    by_cases hx : x = t
    · subst hx; simp [dedupKeepFirst]
    · rw [dedupKeepFirst, List.mem_cons, List.mem_filter, ih, List.mem_cons]
      simp [hx]

theorem nodup_dedupKeepFirst (l : List String) : (dedupKeepFirst l).Nodup := by
  induction l with
  | nil => simp [dedupKeepFirst]
  | cons t rest ih =>
    rw [dedupKeepFirst, List.nodup_cons]
    refine ⟨fun hmem => ?_, ih.filter _⟩
    have := (List.mem_filter.mp hmem).2
    simp at this

theorem length_dedupKeepFirst_eq_card (l : List String) :
    (dedupKeepFirst l).length = l.toFinset.card := by
  have h1 : (dedupKeepFirst l).toFinset = l.toFinset := by
    ext x
    simp [List.mem_toFinset, mem_dedupKeepFirst]
  rw [← h1, List.toFinset_card_of_nodup (nodup_dedupKeepFirst l)]

theorem foldl_max_spec {α : Type} [LinearOrder α] (key : TokenRecord → α)
    (rs : List TokenRecord) :
    ∀ r : TokenRecord,
      (rs.foldl (fun best x => if key best < key x then x else best) r) ∈ r :: rs ∧
      key r ≤ key (rs.foldl (fun best x => if key best < key x then x else best) r) ∧
      ∀ x ∈ rs, key x ≤ key (rs.foldl (fun best x => if key best < key x then x else best) r) := by
  induction rs with
  | nil => intro r; exact ⟨List.mem_cons_self _ _, le_refl _, by simp⟩
  | cons y ys ih =>
    intro r
    by_cases hcmp : key r < key y
    · obtain ⟨hmem, hle, hall⟩ := ih y
      simp only [List.foldl_cons, if_pos hcmp]
      refine ⟨?_, le_trans (le_of_lt hcmp) hle, ?_⟩
      · rcases List.mem_cons.mp hmem with h | h
        · rw [h]; exact List.mem_cons_of_mem _ (List.mem_cons_self _ _)
        · exact List.mem_cons_of_mem _ (List.mem_cons_of_mem _ h)
      · intro x hx
        rcases List.mem_cons.mp hx with h | h
        · rw [h]; exact hle
        · exact hall x h
    · obtain ⟨hmem, hle, hall⟩ := ih r
      simp only [List.foldl_cons, if_neg hcmp]
      refine ⟨?_, hle, ?_⟩
      · rcases List.mem_cons.mp hmem with h | h
        · rw [h]; exact List.mem_cons_self _ _
        · exact List.mem_cons_of_mem _ (List.mem_cons_of_mem _ h)
      · intro x hx
        rcases List.mem_cons.mp hx with h | h
        · rw [h]; exact le_trans (le_of_not_lt hcmp) hle
        · exact hall x h

theorem foldl_min_spec {α : Type} [LinearOrder α] (key : TokenRecord → α)
    (rs : List TokenRecord) :
    ∀ r : TokenRecord,
      (rs.foldl (fun best x => if key x < key best then x else best) r) ∈ r :: rs ∧
      key (rs.foldl (fun best x => if key x < key best then x else best) r) ≤ key r ∧
      ∀ x ∈ rs, key (rs.foldl (fun best x => if key x < key best then x else best) r) ≤ key x := by
  induction rs with
  | nil => intro r; exact ⟨List.mem_cons_self _ _, le_refl _, by simp⟩
  | cons y ys ih =>
    intro r
    by_cases hcmp : key y < key r
    · obtain ⟨hmem, hle, hall⟩ := ih y
      simp only [List.foldl_cons, if_pos hcmp]
      refine ⟨?_, le_trans hle (le_of_lt hcmp), ?_⟩
      · rcases List.mem_cons.mp hmem with h | h
        · rw [h]; exact List.mem_cons_of_mem _ (List.mem_cons_self _ _)
        · exact List.mem_cons_of_mem _ (List.mem_cons_of_mem _ h)
      · intro x hx
        rcases List.mem_cons.mp hx with h | h
        · rw [h]; exact hle
        · exact hall x h
    · obtain ⟨hmem, hle, hall⟩ := ih r
      simp only [List.foldl_cons, if_neg hcmp]
      refine ⟨?_, hle, ?_⟩
      · rcases List.mem_cons.mp hmem with h | h
        · rw [h]; exact List.mem_cons_self _ _
        · exact List.mem_cons_of_mem _ (List.mem_cons_of_mem _ h)
      · intro x hx
        rcases List.mem_cons.mp hx with h | h
        · rw [h]; exact le_trans hle (le_of_not_lt hcmp)
        · exact hall x h

theorem selectMaxBy_spec {α : Type} [LinearOrder α] (key : TokenRecord → α)
    (l : List TokenRecord) (hl : l ≠ []) :
    ∃ b, selectMaxBy key l = some b ∧ b ∈ l ∧ ∀ x ∈ l, key x ≤ key b := by
  cases l with
  | nil => exact absurd rfl hl
  | cons r rs =>
    obtain ⟨hmem, hle, hall⟩ := foldl_max_spec key rs r
    refine ⟨_, rfl, hmem, fun x hx => ?_⟩
    rcases List.mem_cons.mp hx with h | h
    · rw [h]; exact hle
    · exact hall x h

theorem selectMinBy_spec {α : Type} [LinearOrder α] (key : TokenRecord → α)
    (l : List TokenRecord) (hl : l ≠ []) :
    ∃ b, selectMinBy key l = some b ∧ b ∈ l ∧ ∀ x ∈ l, key b ≤ key x := by
  cases l with
  | nil => exact absurd rfl hl
  | cons r rs =>
    obtain ⟨hmem, hle, hall⟩ := foldl_min_spec key rs r
    refine ⟨_, rfl, hmem, fun x hx => ?_⟩
    rcases List.mem_cons.mp hx with h | h
    · rw [h]; exact hle
    · exact hall x h

/-! ## Lemmas: redaction -/

theorem redact_secret_length (v : String) (k : Nat) :
    (redact_secret v k).length = v.length := by
  unfold redact_secret
  split
  · simp [String.length_mk]
  · rename_i h
    have hd : v.data.length = v.length := rfl
    simp only [String.length_mk, List.length_append, List.length_take,
      List.length_replicate]
    omega

theorem redact_secret_masked_beyond (v : String) (k j : Nat) (hk : k ≤ j)
    (hj : j < v.length) : (redact_secret v k).data[j]? = some '*' := by
  unfold redact_secret
  split
  · rename_i h
    omega
  · rename_i h
    have hd : v.data.length = v.length := rfl
    have htk : (v.data.take k).length = k := by
      simp only [List.length_take]
      omega
    show (v.data.take k ++ List.replicate (v.length - k) '*')[j]? = some '*'
    rw [List.getElem?_append_right (by omega), htk]
    rw [List.getElem?_replicate]
    simp only [if_pos (by omega : j - k < v.length - k)]

/-! ## Claim theorems -/

/-- C1: for every provider variant and every `max_retries = N ≥ 1`, if every
transport call raises an exception, `analyze_complexity` issues exactly N
requests (one recorded transcript per request) and fails with an `LLMError`
whose message contains the literal string `after {N} attempts`; every
terminal failure path of the loop is an `Except.error` (a raised `LLMError`),
so no other exception type escapes. -/
theorem C1_retry_exhaustion {Msg Resp : Type} (V : Variant Msg Resp)
    (decode : String → Option Json) (transport : Nat → List Msg → TResult Resp)
    (prompt d s t : String) (N : Nat) (hN : 1 ≤ N)
    (hfail : ∀ a msgs r, transport a msgs ≠ .ok r) :
    ∃ m, (analyze_complexity V decode transport prompt d s t N).1 = .error m ∧
      strHas m (afterAttempts N) = true ∧
      (analyze_complexity V decode transport prompt d s t N).2.length = N := by
  obtain ⟨k, hk⟩ : ∃ k, N = k + 1 := ⟨N - 1, by omega⟩
  obtain ⟨m, tr, heq, hlen, hhas⟩ :=
    runLoop_all_fail V decode transport N hfail k 0
      (V.initialMessages prompt (user_content d s t)) "" []
  rw [← hk] at heq hlen
  refine ⟨m, ?_, hhas, ?_⟩
  · show (runLoop V decode transport N 0 N
        (V.initialMessages prompt (user_content d s t)) "" []).1 = .error m
    rw [heq]
  · show (runLoop V decode transport N 0 N
        (V.initialMessages prompt (user_content d s t)) "" []).2.length = N
    rw [heq]
    simpa using hlen

/-- Witness for C1: the OpenAI variant with a transport that always raises,
`max_retries = 2`. -/
theorem C1_retry_exhaustion_witness :
    ∃ m, (analyze_complexity (openaiVariant "gpt-5.2") wDecode wFailTransport
        "p" "d" "s" "t" 2).1 = .error m ∧
      strHas m (afterAttempts 2) = true ∧
      (analyze_complexity (openaiVariant "gpt-5.2") wDecode wFailTransport
        "p" "d" "s" "t" 2).2.length = 2 :=
  C1_retry_exhaustion (openaiVariant "gpt-5.2") wDecode wFailTransport "p" "d" "s" "t" 2
    (by decide) (fun a msgs r h => by simp [wFailTransport] at h)

/-- C3: for every provider variant, a successful transport whose extracted
text content is empty is retried through the generic backoff branch with the
transcript unchanged (every attempt receives the initial transcript — no
repair turns are ever appended), and on the final attempt it surfaces as an
`LLMError` wrapping the `Empty response` message through the generic
(API-error) path, never through the validation-repair path. -/
theorem C3_empty_content_generic_retry {Msg Resp : Type} (V : Variant Msg Resp)
    (decode : String → Option Json) (transport : Nat → List Msg → TResult Resp)
    (prompt d s t : String) (N : Nat) (hN : 1 ≤ N)
    (hempty : ∀ a msgs, ∃ r, transport a msgs = .ok r ∧ V.extractContent r = "") :
    analyze_complexity V decode transport prompt d s t N =
      (.error (apiErrorMsg V.apiErrorHead N V.emptyResponseMsg),
       List.replicate N (V.initialMessages prompt (user_content d s t))) := by
  obtain ⟨k, hk⟩ : ∃ k, N = k + 1 := ⟨N - 1, by omega⟩
  have h := runLoop_all_empty V decode transport N hempty k 0
    (V.initialMessages prompt (user_content d s t)) "" []
  rw [← hk] at h
  show runLoop V decode transport N 0 N
      (V.initialMessages prompt (user_content d s t)) "" [] = _
  rw [h]
  simp

/-- Witness for C3: the OpenAI variant with a transport that always returns
an empty-content response, `max_retries = 2`. -/
theorem C3_empty_content_generic_retry_witness :
    analyze_complexity (openaiVariant "gpt-5.2") wDecode wEmptyTransport
      "p" "d" "s" "t" 2 =
      (.error (apiErrorMsg (openaiVariant "gpt-5.2").apiErrorHead 2
        (openaiVariant "gpt-5.2").emptyResponseMsg),
       List.replicate 2 ((openaiVariant "gpt-5.2").initialMessages "p"
        (user_content "d" "s" "t"))) :=
  C3_empty_content_generic_retry (openaiVariant "gpt-5.2") wDecode wEmptyTransport
    "p" "d" "s" "t" 2 (by decide) (fun a msgs => ⟨wEmptyResp, rfl, rfl⟩)

/-- C4: the factory `create_llm_provider` (cli/llm.py) has no `"anthropic"`
branch: called with the discriminator `"anthropic"` and a key supplied, it
raises the unknown-provider configuration error instead of constructing the
Anthropic provider that the repository's own tests
(tests/test_llm.py::TestCreateLLMProvider) require. -/
theorem C4_factory_rejects_anthropic :
    create_llm_provider "anthropic" (some "test-key") DEFAULT_MODEL none none
      none none none =
      .error "Unknown provider: anthropic. Use 'openai' or 'bedrock'." := by
  rfl

theorem strHas_append_tail (a b : String) : strHas (a ++ b) b = true := by
  unfold strHas
  simp only [String.data_append]
  exact hasSubList_prepend _ _ _ (by simpa using hasSubList_self_append b.data [])

theorem runLoop_trace_first {Msg Resp : Type} (V : Variant Msg Resp)
    (decode : String → Option Json) (transport : Nat → List Msg → TResult Resp)
    (N : Nat) (j attempt : Nat) (msgs : List Msg) (lc : String)
    (trace : List (List Msg)) :
    ∃ rest, (runLoop V decode transport N attempt (j + 1) msgs lc trace).2 =
      trace ++ [msgs] ++ rest := by
  cases h : transport attempt msgs with
  | exn e =>
    by_cases hr : j > 0
    · rw [runLoop_succ_exn V decode transport N hr h]
      obtain ⟨rest, hrest⟩ :=
        runLoop_trace_extends V decode transport N j (attempt + 1) msgs lc (trace ++ [msgs])
      exact ⟨rest, by rw [hrest]⟩
    · have hj : j = 0 := by omega
      subst hj
      exact ⟨[], by simp [runLoop, h]⟩
  | invalid e =>
    by_cases hr : j > 0
    · obtain ⟨rest, hrest⟩ :=
        runLoop_trace_extends V decode transport N j (attempt + 1)
          (msgs ++ [V.mkAssistant lc, V.mkUser (repair_prompt e)]) lc (trace ++ [msgs])
      refine ⟨rest, ?_⟩
      rw [show runLoop V decode transport N attempt (j + 1) msgs lc trace =
          runLoop V decode transport N (attempt + 1) j
            (msgs ++ [V.mkAssistant lc, V.mkUser (repair_prompt e)]) lc (trace ++ [msgs])
        from by simp [runLoop, h, hr], hrest]
    · have hj : j = 0 := by omega
      subst hj
      exact ⟨[], by simp [runLoop, h]⟩
  | ok r =>
    by_cases hc : V.extractContent r = ""
    · by_cases hr : j > 0
      · rw [runLoop_succ_empty V decode transport N hr h hc]
        obtain ⟨rest, hrest⟩ :=
          runLoop_trace_extends V decode transport N j (attempt + 1) msgs "" (trace ++ [msgs])
        exact ⟨rest, by rw [hrest]⟩
      · have hj : j = 0 := by omega
        subst hj
        exact ⟨[], by simp [runLoop, h, hc]⟩
    · cases hv : validateParsed (decode (V.extractContent r)) with
      | ok pr =>
        exact ⟨[], by rw [runLoop_succ_success V decode transport N h hc hv]; simp⟩
      | error e =>
        by_cases hr : j > 0
        · rw [runLoop_succ_parse_retry V decode transport N hr h hc hv]
          obtain ⟨rest, hrest⟩ :=
            runLoop_trace_extends V decode transport N j (attempt + 1)
              (msgs ++ [V.mkAssistant (V.extractContent r), V.mkUser (repair_prompt e)])
              (V.extractContent r) (trace ++ [msgs])
          exact ⟨rest, by rw [hrest]⟩
        · have hj : j = 0 := by omega
          subst hj
          exact ⟨[], by simp [runLoop, h, hc, hv]⟩

/-- C2: for every provider variant, when attempt 1 transports successfully
but its non-empty content fails validation and attempts remain, exactly two
turns are appended before attempt 2 — the assistant turn carrying the
invalid output, then a user repair turn that asks for a bare JSON object
with `complexity` (int 1..10) and `explanation` fields and includes the
validator's error text — so the transcript passed to attempt 2 has exactly
two more turns than the transcript passed to attempt 1. -/
theorem C2_repair_turn_injection {Msg Resp : Type} (V : Variant Msg Resp)
    (decode : String → Option Json) (transport : Nat → List Msg → TResult Resp)
    (prompt d s t : String) (N : Nat) (hN : 2 ≤ N) (resp : Resp) (c e : String)
    (h1 : transport 0 (V.initialMessages prompt (user_content d s t)) = .ok resp)
    (hc : V.extractContent resp = c) (hne : c ≠ "")
    (hv : validateParsed (decode c) = .error e) :
    (analyze_complexity V decode transport prompt d s t N).2.take 2 =
      [V.initialMessages prompt (user_content d s t),
       V.initialMessages prompt (user_content d s t) ++
         [V.mkAssistant c, V.mkUser (repair_prompt e)]] ∧
    (V.initialMessages prompt (user_content d s t) ++
       [V.mkAssistant c, V.mkUser (repair_prompt e)]).length =
      (V.initialMessages prompt (user_content d s t)).length + 2 ∧
    strHas (repair_prompt e) "complexity" = true ∧
    strHas (repair_prompt e) "<int 1..10>" = true ∧
    strHas (repair_prompt e) "explanation" = true ∧
    strHas (repair_prompt e) e = true := by
  subst hc
  obtain ⟨k, hk⟩ : ∃ k, N = k + 1 + 1 := ⟨N - 2, by omega⟩
  have step := @runLoop_succ_parse_retry Msg Resp V decode transport N 0 (k + 1)
    (V.initialMessages prompt (user_content d s t)) "" [] resp e
    (by omega) h1 hne hv
  rw [← hk] at step
  simp only [List.nil_append] at step
  obtain ⟨rest, hrest⟩ := runLoop_trace_first V decode transport N k 1
    (V.initialMessages prompt (user_content d s t) ++
      [V.mkAssistant (V.extractContent resp), V.mkUser (repair_prompt e)])
    (V.extractContent resp) [V.initialMessages prompt (user_content d s t)]
  refine ⟨?_, by simp, ?_, ?_, ?_, ?_⟩
  · show (runLoop V decode transport N 0 N
      (V.initialMessages prompt (user_content d s t)) "" []).2.take 2 = _
    rw [step, hrest]
    simp
  · unfold repair_prompt
    exact strHas_append_left _ _ _ (by decide)
  · unfold repair_prompt
    exact strHas_append_left _ _ _ (by decide)
  · unfold repair_prompt
    exact strHas_append_left _ _ _ (by decide)
  · unfold repair_prompt
    exact strHas_append_tail _ _

/-- Witness for C2: the OpenAI variant, a transport always returning the
undecodable `"bad"` content, `max_retries = 2`. -/
theorem C2_repair_turn_injection_witness :
    (analyze_complexity (openaiVariant "gpt-5.2") wDecode wBadTransport
        "p" "d" "s" "t" 2).2.take 2 =
      [(openaiVariant "gpt-5.2").initialMessages "p" (user_content "d" "s" "t"),
       (openaiVariant "gpt-5.2").initialMessages "p" (user_content "d" "s" "t") ++
         [(openaiVariant "gpt-5.2").mkAssistant "bad",
          (openaiVariant "gpt-5.2").mkUser
            (repair_prompt "No valid JSON object found in response")]] ∧
    ((openaiVariant "gpt-5.2").initialMessages "p" (user_content "d" "s" "t") ++
       [(openaiVariant "gpt-5.2").mkAssistant "bad",
        (openaiVariant "gpt-5.2").mkUser
          (repair_prompt "No valid JSON object found in response")]).length =
      ((openaiVariant "gpt-5.2").initialMessages "p" (user_content "d" "s" "t")).length + 2 ∧
    strHas (repair_prompt "No valid JSON object found in response") "complexity" = true ∧
    strHas (repair_prompt "No valid JSON object found in response") "<int 1..10>" = true ∧
    strHas (repair_prompt "No valid JSON object found in response") "explanation" = true ∧
    strHas (repair_prompt "No valid JSON object found in response")
      "No valid JSON object found in response" = true :=
  C2_repair_turn_injection (openaiVariant "gpt-5.2") wDecode wBadTransport
    "p" "d" "s" "t" 2 (by decide) wBadResp "bad"
    "No valid JSON object found in response" rfl rfl (by decide) rfl

/-- C5: for every integer n embedded in an otherwise well-formed response
(both required keys present, complexity coercible), the validator returns
`max 1 (min 10 n)` instead of rejecting — in particular 15 clamps to 10 and
0 and -3 clamp to 1 — and it reports `InvalidResponseError` only when there
is no parseable JSON object, the value is not an object, a required key is
absent, or `complexity` is not coercible to an integer. -/
theorem C5_validator_clamping :
    (∀ (fields : List (String × Json)) (cv ev : Json) (n : Int),
        fields.lookup "complexity" = some cv → coerceInt cv = some n →
        fields.lookup "explanation" = some ev →
        validateParsed (some (.obj fields)) =
          .ok ⟨max 1 (min 10 n), jsonToStr ev⟩) ∧
    (∀ (p : Option Json) (e : String), validateParsed p = .error e →
        p = none ∨
        (∃ j, p = some j ∧ ∀ fields, j ≠ .obj fields) ∨
        (∃ fields, p = some (.obj fields) ∧ fields.lookup "complexity" = none) ∨
        (∃ fields cv, p = some (.obj fields) ∧
          fields.lookup "complexity" = some cv ∧ coerceInt cv = none) ∨
        (∃ fields, p = some (.obj fields) ∧
          fields.lookup "explanation" = none)) ∧
    validateParsed
      (some (.obj [("complexity", .num 15), ("explanation", .str "big")])) =
      .ok ⟨10, "big"⟩ ∧
    validateParsed
      (some (.obj [("complexity", .num 0), ("explanation", .str "tiny")])) =
      .ok ⟨1, "tiny"⟩ ∧
    validateParsed
      (some (.obj [("complexity", .num (-3)), ("explanation", .str "neg")])) =
      .ok ⟨1, "neg"⟩ := by
  refine ⟨?_, ?_, rfl, rfl, rfl⟩
  · intro fields cv ev n h1 h2 h3
    simp [validateParsed, h1, h2, h3]
  · intro p e herr
    match p with
    | none => exact Or.inl rfl
    | some (.null) => exact Or.inr (Or.inl ⟨_, rfl, fun fields => by simp⟩)
    | some (.bool b) => exact Or.inr (Or.inl ⟨_, rfl, fun fields => by simp⟩)
    | some (.num n) => exact Or.inr (Or.inl ⟨_, rfl, fun fields => by simp⟩)
    | some (.str s) => exact Or.inr (Or.inl ⟨_, rfl, fun fields => by simp⟩)
    | some (.arr xs) => exact Or.inr (Or.inl ⟨_, rfl, fun fields => by simp⟩)
    | some (.obj fields) =>
      cases hc : fields.lookup "complexity" with
      | none => exact Or.inr (Or.inr (Or.inl ⟨fields, rfl, hc⟩))
      | some cv =>
        cases hco : coerceInt cv with
        | none =>
          exact Or.inr (Or.inr (Or.inr (Or.inl ⟨fields, cv, rfl, hc, hco⟩)))
        | some n =>
          cases he : fields.lookup "explanation" with
          | none => exact Or.inr (Or.inr (Or.inr (Or.inr ⟨fields, rfl, he⟩)))
          | some ev => simp [validateParsed, hc, hco, he] at herr

/-- Witness for C5: a well-formed response with out-of-range complexity 15
parses with the clamped value. -/
theorem C5_validator_clamping_witness :
    validateParsed
      (some (.obj [("complexity", .num 15), ("explanation", .str "big")])) =
      .ok ⟨max 1 (min 10 15), jsonToStr (.str "big")⟩ :=
  C5_validator_clamping.1 [("complexity", .num 15), ("explanation", .str "big")]
    (.num 15) (.str "big") 15 rfl rfl rfl

/-- C6: construction de-duplicates and discards blanks, so `token_count`
equals the number of distinct non-empty input strings (`["a","a","b"]` gives
2); an empty pool is a configuration error, and the message for an
originally-empty input differs from the one for an input that became empty
after filtering blanks. -/
theorem C6_token_dedup :
    (∀ ts : List String, ts.filter (fun x => x ≠ "") ≠ [] →
        ∃ rot, mkTokenRotator ts = .ok rot ∧
          rot.token_count = (ts.filter (fun x => x ≠ "")).toFinset.card) ∧
    (∃ rot, mkTokenRotator ["a", "a", "b"] = .ok rot ∧ rot.token_count = 2) ∧
    mkTokenRotator [] = .error "At least one token is required" ∧
    mkTokenRotator ["", "", ""] =
      .error "At least one non-empty token is required" ∧
    ("At least one token is required" : String) ≠
      "At least one non-empty token is required" := by
  refine ⟨?_, ⟨⟨[⟨"a", none, none⟩, ⟨"b", none, none⟩]⟩, rfl, rfl⟩, rfl, rfl,
    by decide⟩
  intro ts hne
  have hts : ts ≠ [] := by
    intro h
    subst h
    simp at hne
  have hpool : dedupKeepFirst (ts.filter (fun t => t ≠ "")) ≠ [] := by
    obtain ⟨x, hx⟩ := List.exists_mem_of_ne_nil _ hne
    intro h
    have hmem := (mem_dedupKeepFirst x (ts.filter (fun t => t ≠ ""))).mpr hx
    rw [h] at hmem
    simp at hmem
  refine ⟨⟨(dedupKeepFirst (ts.filter (fun t => t ≠ ""))).map
    (fun t => ⟨t, none, none⟩)⟩, ?_, ?_⟩
  · unfold mkTokenRotator
    rw [if_neg hts]
    simp only [if_neg hpool]
  · show (List.map _ _).length = _
    rw [List.length_map, length_dedupKeepFirst_eq_card]

/-- Witness for C6: a pool with one duplicate and one blank entry. -/
theorem C6_token_dedup_witness :
    ∃ rot, mkTokenRotator ["a", "a", "", "b"] = .ok rot ∧
      rot.token_count = (["a", "a", "", "b"].filter
        (fun x => x ≠ "")).toFinset.card :=
  C6_token_dedup.1 ["a", "a", "", "b"] (by decide)

/-- C7: on a non-empty pool `get_token` always returns some pool member's
token (never an error): if at least one token is not currently rate-limited
it returns a non-rate-limited record maximizing the last-known remaining
count (unknown treated as maximal); if every token is rate-limited it
returns a record with the soonest reset time. -/
theorem C7_get_token_selection (rot : TokenRotator) (now : Int)
    (hne : rot.records ≠ []) :
    ∃ ρ ∈ rot.records, rot.get_token now = some ρ.token ∧
      ((∃ r ∈ rot.records, rate_limited now r = false) →
        rate_limited now ρ = false ∧
        ∀ r ∈ rot.records, rate_limited now r = false → remKey r ≤ remKey ρ) ∧
      ((∀ r ∈ rot.records, rate_limited now r = true) →
        ∀ r ∈ rot.records, resetKey ρ ≤ resetKey r) := by
  cases havail : rot.records.filter (fun r => !(rate_limited now r)) with
  | nil =>
    obtain ⟨b, hsel, hmem, hmin⟩ := selectMinBy_spec resetKey rot.records hne
    refine ⟨b, hmem, ?_, ?_, fun _ => hmin⟩
    · simp only [TokenRotator.get_token]
      rw [havail]
      simp [selectMaxBy, hsel]
    · rintro ⟨r, hr, hrl⟩
      have hrf : r ∈ rot.records.filter (fun r => !(rate_limited now r)) :=
        List.mem_filter.mpr ⟨hr, by simp [hrl]⟩
      rw [havail] at hrf
      simp at hrf
  | cons a as =>
    have hfne : rot.records.filter (fun r => !(rate_limited now r)) ≠ [] := by
      rw [havail]
      simp
    obtain ⟨b, hsel, hmem, hmax⟩ := selectMaxBy_spec remKey _ hfne
    have hbrec : b ∈ rot.records := (List.mem_filter.mp hmem).1
    have hbnl : rate_limited now b = false := by
      have hb2 := (List.mem_filter.mp hmem).2
      simpa using hb2
    refine ⟨b, hbrec, ?_, fun _ => ⟨hbnl, fun r hr hrl => ?_⟩, fun hall => ?_⟩
    · simp only [TokenRotator.get_token]
      rw [hsel]
    · exact hmax r (List.mem_filter.mpr ⟨hr, by simp [hrl]⟩)
    · exact absurd (hall b hbrec) (by simp [hbnl])

/-- Witness for C7: a two-token pool where one token has a known remaining
count and the other is untested. -/
theorem C7_get_token_selection_witness :
    ∃ ρ ∈ wRotator.records, wRotator.get_token 0 = some ρ.token ∧
      ((∃ r ∈ wRotator.records, rate_limited 0 r = false) →
        rate_limited 0 ρ = false ∧
        ∀ r ∈ wRotator.records, rate_limited 0 r = false → remKey r ≤ remKey ρ) ∧
      ((∀ r ∈ wRotator.records, rate_limited 0 r = true) →
        ∀ r ∈ wRotator.records, resetKey ρ ≤ resetKey r) :=
  C7_get_token_selection wRotator 0 (by simp [wRotator])

/-- C8 (amended): on a successful single-attempt run the `tokens` field of
the returned record is the variant's usage extraction; for the OpenAI and
Anthropic variants it is `none` exactly when the response carries no usage
metadata (and the variant's total when it does), but the Bedrock variant
never yields `none` on a dict-shaped response: with usage metadata entirely
absent it yields `some 0`. -/
theorem C8_tokens_field_amended (model prompt d s t : String)
    (decode : String → Option Json)
    (ro : OpenAIResponse) (ra : AnthropicResponse) (rb : BedrockResponse)
    (po pa pb : ParsedResult)
    (hco : ro.content ≠ "")
    (hvo : validateParsed (decode ro.content) = .ok po)
    (hca : anthropic_extract_content ra ≠ "")
    (hva : validateParsed (decode (anthropic_extract_content ra)) = .ok pa)
    (hcb : bedrock_extract_content rb ≠ "")
    (hvb : validateParsed (decode (bedrock_extract_content rb)) = .ok pb) :
    ((analyze_complexity (openaiVariant model) decode (fun _ _ => .ok ro)
        prompt d s t 1).1 =
      .ok ⟨po.complexity, po.explanation, "openai", model,
        openai_extract_tokens ro⟩ ∧
     (ro.usage = none → openai_extract_tokens ro = none) ∧
     (∀ u, ro.usage = some u →
        openai_extract_tokens ro = some u.total_tokens)) ∧
    ((analyze_complexity (anthropicVariant model) decode (fun _ _ => .ok ra)
        prompt d s t 1).1 =
      .ok ⟨pa.complexity, pa.explanation, "anthropic", model,
        anthropic_extract_tokens ra⟩ ∧
     (ra.usage = none → anthropic_extract_tokens ra = none) ∧
     (∀ u, ra.usage = some u → anthropic_extract_tokens ra =
        some (u.input_tokens.getD 0 + u.output_tokens.getD 0))) ∧
    ((analyze_complexity (bedrockVariant model) decode (fun _ _ => .ok rb)
        prompt d s t 1).1 =
      .ok ⟨pb.complexity, pb.explanation, "bedrock", model,
        bedrock_extract_tokens rb⟩ ∧
     (∃ n, bedrock_extract_tokens rb = some n) ∧
     (rb.usage = none → bedrock_extract_tokens rb = some 0)) := by
  refine ⟨⟨?_, ?_, ?_⟩, ⟨?_, ?_, ?_⟩, ⟨?_, ?_, ?_⟩⟩
  · show (runLoop (openaiVariant model) decode (fun _ _ => .ok ro) 1 0 1
      ((openaiVariant model).initialMessages prompt
        (user_content d s t)) "" []).1 = _
    rw [runLoop_succ_success (openaiVariant model) decode (fun _ _ => .ok ro) 1
      rfl hco hvo]
    rfl
  · intro h
    simp [openai_extract_tokens, h]
  · intro u h
    simp [openai_extract_tokens, h]
  · show (runLoop (anthropicVariant model) decode (fun _ _ => .ok ra) 1 0 1
      ((anthropicVariant model).initialMessages prompt
        (user_content d s t)) "" []).1 = _
    rw [runLoop_succ_success (anthropicVariant model) decode (fun _ _ => .ok ra) 1
      rfl hca hva]
    rfl
  · intro h
    simp [anthropic_extract_tokens, h]
  · intro u h
    simp [anthropic_extract_tokens, h]
  · show (runLoop (bedrockVariant model) decode (fun _ _ => .ok rb) 1 0 1
      ((bedrockVariant model).initialMessages prompt
        (user_content d s t)) "" []).1 = _
    rw [runLoop_succ_success (bedrockVariant model) decode (fun _ _ => .ok rb) 1
      rfl hcb hvb]
    rfl
  · obtain ⟨oc, us⟩ := rb
    cases us with
    | none => exact ⟨0, rfl⟩
    | some u =>
      obtain ⟨tt, it, ot⟩ := u
      cases tt with
      | none => exact ⟨_, rfl⟩
      | some v =>
        by_cases hv0 : v = 0
        · subst hv0
          exact ⟨it.getD 0 + ot.getD 0, by simp [bedrock_extract_tokens]⟩
        · exact ⟨v, by simp [bedrock_extract_tokens, hv0]⟩
  · intro h
    simp [bedrock_extract_tokens, h]

/-- Witness for C8 (amended): concrete valid responses for all three
variants, the Bedrock one carrying no usage metadata. -/
theorem C8_tokens_field_amended_witness :
    ((analyze_complexity (openaiVariant "m") wDecode wOkTransportO
        "p" "d" "s" "t" 1).1 =
      .ok ⟨(⟨5, "Medium"⟩ : ParsedResult).complexity,
        (⟨5, "Medium"⟩ : ParsedResult).explanation, "openai", "m",
        openai_extract_tokens wOkRespO⟩ ∧
     (wOkRespO.usage = none → openai_extract_tokens wOkRespO = none) ∧
     (∀ u, wOkRespO.usage = some u →
        openai_extract_tokens wOkRespO = some u.total_tokens)) ∧
    ((analyze_complexity (anthropicVariant "m") wDecode wOkTransportA
        "p" "d" "s" "t" 1).1 =
      .ok ⟨(⟨5, "Medium"⟩ : ParsedResult).complexity,
        (⟨5, "Medium"⟩ : ParsedResult).explanation, "anthropic", "m",
        anthropic_extract_tokens wOkRespA⟩ ∧
     (wOkRespA.usage = none → anthropic_extract_tokens wOkRespA = none) ∧
     (∀ u, wOkRespA.usage = some u → anthropic_extract_tokens wOkRespA =
        some (u.input_tokens.getD 0 + u.output_tokens.getD 0))) ∧
    ((analyze_complexity (bedrockVariant "m") wDecode wBedrockTransport
        "p" "d" "s" "t" 1).1 =
      .ok ⟨(⟨5, "Medium"⟩ : ParsedResult).complexity,
        (⟨5, "Medium"⟩ : ParsedResult).explanation, "bedrock", "m",
        bedrock_extract_tokens wOkRespBNoUsage⟩ ∧
     (∃ n, bedrock_extract_tokens wOkRespBNoUsage = some n) ∧
     (wOkRespBNoUsage.usage = none →
        bedrock_extract_tokens wOkRespBNoUsage = some 0)) :=
  C8_tokens_field_amended "m" "p" "d" "s" "t" wDecode wOkRespO wOkRespA
    wOkRespBNoUsage ⟨5, "Medium"⟩ ⟨5, "Medium"⟩ ⟨5, "Medium"⟩
    (by decide) rfl (by decide) rfl (by decide) rfl

/-- C8 counterexample: a Bedrock response with *no* usage metadata at all
still yields `tokens = some 0` in the returned record, not `None`. -/
theorem C8_bedrock_tokens_counterexample :
    (analyze_complexity (bedrockVariant "m") wDecode wBedrockTransport
        "p" "d" "s" "t" 1).1 =
      .ok ⟨5, "Medium", "bedrock", "m", some 0⟩ ∧
    (some 0 : Option Nat) ≠ none := ⟨rfl, by simp⟩

/-- C9 counterexample: a value longer than `TOKEN_VISIBLE_CHARS` whose tail
beyond the visible prefix is already all mask characters redacts to itself,
so the full raw value appears verbatim in the redacted output. -/
theorem C9_redaction_counterexample :
    TOKEN_VISIBLE_CHARS < ("ghp_****" : String).length ∧
    redact_secret "ghp_****" TOKEN_VISIBLE_CHARS = "ghp_****" :=
  ⟨by decide, by decide⟩

/-- C9 (amended): every character of the redacted output at or beyond
position `TOKEN_VISIBLE_CHARS` (`k`) is the mask character, so at most the
first `k` characters of the value are shown; consequently, for a value
longer than `k` with some non-mask character beyond the visible prefix the
raw value never equals the redacted output (the only values fixed by
redaction are those whose tail is already all mask characters); and
`get_status` keys are exactly the redacted token forms, never raw secrets. -/
theorem C9_redaction_amended (v : String) (k j i : Nat) (rot : TokenRotator)
    (now : Int) :
    (k ≤ j → j < v.length → (redact_secret v k).data[j]? = some '*') ∧
    (k < v.length → k ≤ i → i < v.length → v.data[i]? ≠ some '*' →
      redact_secret v k ≠ v) ∧
    ((rot.get_status now).map Prod.fst =
      rot.records.map (fun r => redact_secret r.token TOKEN_VISIBLE_CHARS)) := by
  refine ⟨redact_secret_masked_beyond v k j, ?_, ?_⟩
  · intro hkv hki hiv hne heq
    apply hne
    rw [← heq]
    exact redact_secret_masked_beyond v k i hki hiv
  · simp [TokenRotator.get_status]

/-- Witness for C9 (amended): the secret `"ghp_secret"` with the default
visible-prefix length, and the concrete two-token pool. -/
theorem C9_redaction_amended_witness :
    (redact_secret "ghp_secret" TOKEN_VISIBLE_CHARS).data[5]? = some '*' ∧
    redact_secret "ghp_secret" TOKEN_VISIBLE_CHARS ≠ "ghp_secret" ∧
    (wRotator.get_status 0).map Prod.fst =
      wRotator.records.map (fun r => redact_secret r.token TOKEN_VISIBLE_CHARS) :=
  ⟨(C9_redaction_amended "ghp_secret" TOKEN_VISIBLE_CHARS 5 4 wRotator 0).1
      (by decide) (by decide),
   (C9_redaction_amended "ghp_secret" TOKEN_VISIBLE_CHARS 5 4 wRotator 0).2.1
      (by decide) (by decide) (by decide) (by decide),
   (C9_redaction_amended "ghp_secret" TOKEN_VISIBLE_CHARS 5 4 wRotator 0).2.2⟩

/-- C10: redaction is length-preserving — the mask replaces characters
one-for-one, so the redacted form reveals the secret's exact length — and a
value no longer than `visible_chars` is masked entirely, showing no prefix
at all. -/
theorem C10_redact_length_preserving (v : String) (k : Nat) :
    (redact_secret v k).length = v.length ∧
    (v.length ≤ k → ∀ c ∈ (redact_secret v k).data, c = '*') := by
  refine ⟨redact_secret_length v k, fun h c hc => ?_⟩
  unfold redact_secret at hc
  rw [if_pos h] at hc
  have hc2 : c ∈ List.replicate v.length '*' := hc
  exact List.eq_of_mem_replicate hc2

/-- Witness for C10: a two-character value with a five-character visible
budget is fully masked and keeps its length. -/
theorem C10_redact_length_preserving_witness :
    (redact_secret "ab" 5).length = ("ab" : String).length ∧
    (∀ c ∈ (redact_secret "ab" 5).data, c = '*') :=
  ⟨(C10_redact_length_preserving "ab" 5).1,
   (C10_redact_length_preserving "ab" 5).2 (by decide)⟩
